import Mathlib

/-!
# Pattern Visualizer backend: shallow embedding and verification

Model of the Express/PostgreSQL backend of the pattern-visualizer
repository (`server/index.js`, `server/sql/001_create_presets.sql`):
JWT-authenticated preset CRUD, public share links, pattern uploads.

The relational store is modelled as lists of rows; each HTTP handler
becomes a pure function from store (plus the request data) to a
response, and to a new store when the handler mutates.  SQL queries
are modelled by `List.find?` / `List.filter` / `List.map` over the row
lists.  Randomness (slug generation), fresh row ids and timestamps are
passed in as explicit arguments; cryptographic primitives (bcrypt
compare, JWT signing) are opaque function parameters.
-/

namespace PatternViz

/-- JSON-like values: what `express.json()` produces for request bodies
and what a `jsonb` column stores.  Numbers are modelled as rationals
(`jsonb` has no NaN/Infinity). -/
inductive JSVal where
  | null
  | bool (b : Bool)
  | num (q : ℚ)
  | str (s : String)
  | arr (elems : List JSVal)
  | obj (fields : List (String × JSVal))

/-- JavaScript truthiness of a JSON value (`!v` is `true` iff `v` is falsy). -/
def jsTruthy : JSVal → Bool
  | .null => false
  | .bool b => b
  | .num q => q != 0
  | .str s => s != ""
  | .arr _ => true
  | .obj _ => true

/-- `typeof v === 'object'` for a JSON value: true for `null`, arrays and objects. -/
def jsTypeofIsObject : JSVal → Bool
  | .null => true
  | .arr _ => true
  | .obj _ => true
  | _ => false

/-- `Array.isArray(v)` for a JSON value. -/
def jsIsArr : JSVal → Bool
  | .arr _ => true
  | _ => false

/-- Extract the underlying string of a JSON string (used only after a
`typeof v === 'string'` check has succeeded, so the default is unreachable). -/
def jsStr : JSVal → String
  | .str s => s
  | _ => ""

/-- First value bound to a key in a JSON object (field lookup on a response body). -/
def jsGet (v : JSVal) (key : String) : Option JSVal :=
  match v with
  | .obj fields => (fields.find? (fun kv => kv.fst == key)).map (·.snd)
  | _ => none

/-- JS `value.trim()`, computed over the character list: strip leading
and trailing whitespace. -/
def jsTrim (s : String) : String :=
  ⟨((s.data.dropWhile Char.isWhitespace).reverse.dropWhile Char.isWhitespace).reverse⟩

/-- JS `s.startsWith(p)`, computed over the character lists. -/
def strStartsWith (s p : String) : Bool :=
  p.data.isPrefixOf s.data

/-- JS `s.slice(n)` / dropping the first `n` characters, computed over
the character list. -/
def strDrop (s : String) (n : Nat) : String :=
  ⟨s.data.drop n⟩

/-- The value of a decimal digit. -/
def charDigit? (c : Char) : Option Nat :=
  if c.isDigit then some (c.toNat - 48) else none

/-- The value of a hexadecimal digit. -/
def hexDigit? (c : Char) : Option Nat :=
  if c.isDigit then some (c.toNat - 48)
  else if 'a' ≤ c ∧ c ≤ 'f' then some (c.toNat - 87)
  else if 'A' ≤ c ∧ c ≤ 'F' then some (c.toNat - 55)
  else none

/-- The value of an octal digit. -/
def octDigit? (c : Char) : Option Nat :=
  if '0' ≤ c ∧ c ≤ '7' then some (c.toNat - 48) else none

/-- The value of a binary digit. -/
def binDigit? (c : Char) : Option Nat :=
  if c == '0' then some 0 else if c == '1' then some 1 else none

/-- Value of a non-empty digit sequence in the given base, `none` when
empty or any character is not a digit of that base. -/
def listToNat? (base : Nat) (digit? : Char → Option Nat) (cs : List Char) : Option Nat :=
  if cs.isEmpty then none
  else
    cs.foldl
      (fun acc c =>
        match acc, digit? c with
        | some n, some d => some (n * base + d)
        | _, _ => none)
      (some 0)

/-- `isNonEmptyString` from `server/index.js`:
`typeof value === 'string' && value.trim().length > 0`. -/
def isNonEmptyString : JSVal → Bool
  | .str s => (jsTrim s).length > 0
  | _ => false

/-- A row of the `users` table (`id uuid`, unique `email`, `password_hash`). -/
structure User where
  id : String
  email : String
  password_hash : String

/-- A row of the `patterns` table (serial integer `id`, owner, stored
filename, upload timestamp). -/
structure Pattern where
  id : Nat
  user_id : String
  filename : String
  uploaded_at : Nat

/-- A row of the `presets` table from `001_create_presets.sql`:
uuid `id`, owning `user_id`, `name`, `pattern_id text`, opaque `settings
jsonb`, `is_public boolean default false`, nullable unique `share_slug`,
`created_at`. -/
structure Preset where
  id : String
  user_id : String
  name : String
  pattern_id : String
  settings : JSVal
  is_public : Bool
  share_slug : Option String
  created_at : Nat

/-- The relational store: the three tables the handlers touch. -/
structure Store where
  users : List User
  patterns : List Pattern
  presets : List Preset

/-- An HTTP response: status code and JSON body. -/
structure Response where
  status : Nat
  body : JSVal

/-- `res.status(code).json({ message })`, the shape of every error reply. -/
def msgResp (status : Nat) (message : String) : Response :=
  ⟨status, .obj [("message", .str message)]⟩

/-- `mapPresetRow` from `server/index.js`: the JSON view of a preset row. -/
def mapPresetRow (p : Preset) : JSVal :=
  .obj [("id", .str p.id),
        ("name", .str p.name),
        ("patternId", .str p.pattern_id),
        ("settings", p.settings),
        ("isPublic", .bool p.is_public),
        ("shareSlug", match p.share_slug with | some s => .str s | none => .null),
        ("createdAt", .num (p.created_at : ℚ))]

/-- `SELECT ... FROM presets WHERE id = $1 AND user_id = $2` row predicate. -/
def presetMatch (pid uid : String) (p : Preset) : Bool :=
  p.id == pid && p.user_id == uid

/-- `SELECT 1 FROM presets WHERE share_slug = $1` is non-empty. -/
def slugTaken (st : Store) (slug : String) : Bool :=
  st.presets.any (fun p => p.share_slug == some slug)

/-- `POST /api/auth/login`.  `bcryptCompare password hash` stands for
`bcrypt.compare` and `sign userId email` for `jwt.sign` (opaque
cryptographic services).  The body fields are the destructured `email`
and `password` strings; JS falsiness of a string is emptiness. -/
def login (bcryptCompare : String → String → Bool)
    (sign : String → String → String) (st : Store)
    (email password : String) : Response :=
  if email == "" || password == "" then
    msgResp 400 "Email and password are required."
  else
    match st.users.find? (fun u => u.email == email) with
    | none => msgResp 401 "Invalid credentials."
    | some user =>
      if bcryptCompare password user.password_hash then
        ⟨200, .obj [("token", .str (sign user.id user.email))]⟩
      else
        msgResp 401 "Invalid credentials."

/-- A multipart file part: original client filename and content type. -/
structure UploadFile where
  originalname : String
  mimetype : String

/-- Errors reaching the catch-all error middleware: multer-internal
errors (`multer.MulterError`) versus any other thrown `Error`. -/
inductive AppError where
  | multerErr (message : String)
  | plainErr (message : String)

/-- The catch-all error translator at the bottom of `server/index.js`:
`err instanceof multer.MulterError` maps to 400 with the error message;
any other error maps to 500 with a generic message. -/
def errorTranslator : AppError → Response
  | .multerErr m => msgResp 400 m
  | .plainErr _ => msgResp 500 "Internal server error."

/-- `fileFilter` from `server/index.js`: accept when the content type
starts with `image/`, otherwise reject with `new Error(...)` — a plain
`Error`, not a `multer.MulterError`. -/
def fileFilter (file : UploadFile) : Option AppError :=
  if strStartsWith file.mimetype "image/" then none
  else some (.plainErr "Only image uploads are allowed.")

/-- `Date.now() + '-' + file.originalname.replace(/\s+/g, '_')`: the
stored filename chosen by the multer disk storage engine.  Whitespace
runs collapse to single underscores; we model the per-character variant
(each whitespace char to an underscore), which agrees on names without
consecutive whitespace. -/
def storedFilename (now : Nat) (originalname : String) : String :=
  toString now ++ "-" ++ String.map (fun c => if c.isWhitespace then '_' else c) originalname

/-- `POST /api/patterns/upload`: the route `upload.single('pattern')`
then the handler.  `file?` is the multipart `pattern` field (none when
absent).  A `fileFilter` rejection bypasses the handler and lands in the
error translator; otherwise the handler requires a file and inserts a
`patterns` row.  `freshId` is the serial id the insert returns. -/
def uploadRoute (st : Store) (userId : String) (now freshId : Nat)
    (file? : Option UploadFile) : Response × Store :=
  match file? with
  | none => (msgResp 400 "Pattern file is required.", st)
  | some file =>
    match fileFilter file with
    | some e => (errorTranslator e, st)
    | none =>
      let row : Pattern :=
        { id := freshId, user_id := userId,
          filename := storedFilename now file.originalname, uploaded_at := now }
      (⟨201, .obj [("id", .num (row.id : ℚ)),
                   ("filename", .str row.filename),
                   ("uploadedAt", .num (row.uploaded_at : ℚ)),
                   ("url", .str ("/uploads/" ++ row.filename))]⟩,
       { st with patterns := st.patterns ++ [row] })

/-- Bytewise (code-point) lexicographic comparison of equal-length
strings, as a computation over the character lists. -/
def charListLt : List Char → List Char → Bool
  | [], [] => false
  | [], _ :: _ => true
  | _ :: _, [] => false
  | a :: as, b :: bs =>
    if a < b then true else if b < a then false else charListLt as bs

/-- The `jsonb` storage order of object keys: shorter keys first, equal
lengths bytewise (UTF-8 byte comparison, which on equal-length strings
coincides with code-point comparison).  `String.utf8ByteSize` is the
byte length the store compares. -/
def jsonbKeyLt (a b : String) : Bool :=
  a.utf8ByteSize < b.utf8ByteSize ||
    (a.utf8ByteSize == b.utf8ByteSize && charListLt a.data b.data)

/-- Insert a field into a key-sorted field list (keys are distinct after
duplicate removal, so ties cannot occur). -/
def insertField (kv : String × JSVal) : List (String × JSVal) → List (String × JSVal)
  | [] => [kv]
  | kv' :: rest =>
    if jsonbKeyLt kv'.fst kv.fst then kv' :: insertField kv rest
    else kv :: kv' :: rest

/-- Sort a field list into `jsonb` key order. -/
def sortFields : List (String × JSVal) → List (String × JSVal)
  | [] => []
  | kv :: rest => insertField kv (sortFields rest)

/-- Drop duplicate keys keeping the last value, as `jsonb` input
conversion does. -/
def dedupFields : List (String × JSVal) → List (String × JSVal)
  | [] => []
  | (k, v) :: rest =>
    if rest.any (fun kv => kv.fst == k) then dedupFields rest
    else (k, v) :: dedupFields rest

mutual

/-- The `jsonb` normalization a value undergoes when stored in a
`jsonb` column: per the PostgreSQL documentation, `jsonb` "does not
preserve the order of object keys, and does not keep duplicate object
keys" (only the last value of a duplicate key is kept); stored objects
come back with keys in the storage order (length, then bytewise).
Scalars and array element order are preserved. -/
def jsonbNorm : JSVal → JSVal
  | .null => .null
  | .bool b => .bool b
  | .num q => .num q
  | .str s => .str s
  | .arr elems => .arr (jsonbNormList elems)
  | .obj fields => .obj (sortFields (dedupFields (jsonbNormFields fields)))

/-- `jsonbNorm` over the elements of an array. -/
def jsonbNormList : List JSVal → List JSVal
  | [] => []
  | v :: vs => jsonbNorm v :: jsonbNormList vs

/-- `jsonbNorm` over the values of an object's fields. -/
def jsonbNormFields : List (String × JSVal) → List (String × JSVal)
  | [] => []
  | (k, v) :: kvs => (k, jsonbNorm v) :: jsonbNormFields kvs

end

/-- The validation guard of `POST /api/presets`:
`isNonEmptyString(name) && isNonEmptyString(patternId) && settings &&
typeof settings === 'object' && !Array.isArray(settings)`. -/
def createValid (name patternId settings : JSVal) : Bool :=
  isNonEmptyString name && isNonEmptyString patternId &&
    jsTruthy settings && jsTypeofIsObject settings && !jsIsArr settings

/-- `POST /api/presets`: validate, then
`INSERT INTO presets (user_id, name, pattern_id, settings) VALUES ... RETURNING *`
(the table defaults give `is_public = false` and a null `share_slug`);
the inserted name is `name.trim()`, and the `settings jsonb` column
stores the payload in `jsonb` normal form, which is also what
`RETURNING *` reports back.  `freshId` is the uuid the database
generates and `now` the row timestamp. -/
def createPreset (st : Store) (userId freshId : String) (now : Nat)
    (name patternId settings : JSVal) : Response × Store :=
  if !createValid name patternId settings then
    (msgResp 400 "Preset name, patternId, and settings are required.", st)
  else
    let row : Preset :=
      { id := freshId, user_id := userId, name := jsTrim (jsStr name),
        pattern_id := jsStr patternId, settings := jsonbNorm settings,
        is_public := false, share_slug := none, created_at := now }
    (⟨201, mapPresetRow row⟩, { st with presets := st.presets ++ [row] })

/-- `GET /api/presets/:id`: select by id and owner, 404 when no row. -/
def getPreset (st : Store) (userId pid : String) : Response :=
  match st.presets.find? (presetMatch pid userId) with
  | none => msgResp 404 "Preset not found."
  | some row => ⟨200, mapPresetRow row⟩

/-- `DELETE /api/presets/:id`: delete by id and owner; `rowCount === 0`
gives 404, otherwise `{ ok: true }`. -/
def deletePreset (st : Store) (userId pid : String) : Response × Store :=
  if st.presets.countP (presetMatch pid userId) == 0 then
    (msgResp 404 "Preset not found.", st)
  else
    (⟨200, .obj [("ok", .bool true)]⟩,
     { st with presets := st.presets.filter (fun p => !presetMatch pid userId p) })

/-- `generateUniqueShareSlug`: up to 5 attempts, each drawing a random
10-hex-char slug and keeping it iff no presets row has it; all 5
colliding throws.  The random draws are the explicit `candidates`
stream; the result is the first untaken candidate among the first five,
`none` modelling the throw. -/
def generateUniqueShareSlug (st : Store) (candidates : List String) : Option String :=
  (candidates.take 5).find? (fun slug => !slugTaken st slug)

/-- The slug chosen by the share handler:
`existing.rows[0].share_slug || (await generateUniqueShareSlug())` —
a null (or empty, JS falsiness) stored slug triggers generation. -/
def shareSlugChoice (st : Store) (cur : Option String)
    (candidates : List String) : Option String :=
  match cur with
  | some s => if s == "" then generateUniqueShareSlug st candidates else some s
  | none => generateUniqueShareSlug st candidates

/-- The row update of `UPDATE presets SET is_public = true,
share_slug = $1 WHERE id = $2 AND user_id = $3`. -/
def shareRowUpd (pid uid slug : String) (p : Preset) : Preset :=
  if presetMatch pid uid p then { p with is_public := true, share_slug := some slug }
  else p

/-- The row update of `UPDATE presets SET is_public = false WHERE id = $1
AND user_id = $2`. -/
def unshareRowUpd (pid uid : String) (p : Preset) : Preset :=
  if presetMatch pid uid p then { p with is_public := false } else p

/-- The success body of the share handler: the slug the `UPDATE ...
RETURNING share_slug` row reports, and `buildShareUrl` over the request
origin `base` (`req.protocol + '://' + req.get('host')`). -/
def shareResp (base slug : String) : Response :=
  ⟨200, .obj [("shareSlug", .str slug), ("shareUrl", .str (base ++ "/s/" ++ slug))]⟩

/-- `POST /api/presets/:id/share`: select the owned row (404 when
absent), reuse its slug or generate a fresh one (a throw after 5
collisions is caught and answered with 500), then
`UPDATE presets SET is_public = true, share_slug = $1 WHERE id AND user_id`. -/
def sharePreset (st : Store) (userId pid : String) (candidates : List String)
    (base : String) : Response × Store :=
  match st.presets.find? (presetMatch pid userId) with
  | none => (msgResp 404 "Preset not found.", st)
  | some row =>
    match shareSlugChoice st row.share_slug candidates with
    | none => (msgResp 500 "Failed to share preset.", st)
    | some slug =>
      (shareResp base slug,
       { st with presets := st.presets.map (shareRowUpd pid userId slug) })

/-- `POST /api/presets/:id/unshare`:
`UPDATE presets SET is_public = false WHERE id = $1 AND user_id = $2`;
`rowCount === 0` gives 404.  The slug column is untouched. -/
def unsharePreset (st : Store) (userId pid : String) : Response × Store :=
  if st.presets.countP (presetMatch pid userId) == 0 then
    (msgResp 404 "Preset not found.", st)
  else
    (⟨200, .obj [("ok", .bool true)]⟩,
     { st with presets := st.presets.map (unshareRowUpd pid userId) })

/-- The result of a JS `Number(string)` conversion, as far as the
resolver's subsequent `SELECT ... WHERE id = $1` against the integral
`patterns.id` key can distinguish: NaN, a finite integral value (whose
serialized text binds to the column), or any other number — non-integral
finite or ±Infinity — whose serialized text fails to parse as an
integer at the store. -/
inductive JSNumber where
  | nan
  | intVal (n : Int)
  | nonIntegral
  deriving DecidableEq

/-- Split at the first separator character: the part before it, and the
part after it when one occurs. -/
def splitFirst (isSep : Char → Bool) : List Char → List Char × Option (List Char)
  | [] => ([], none)
  | c :: cs =>
    if isSep c then ([], some cs)
    else
      let (before, after) := splitFirst isSep cs
      (c :: before, after)

/-- StrUnsignedDecimalLiteral without its exponent part: `digits`,
`digits.`, `digits.digits` or `.digits`; the result `(m, k)` denotes the
value m / 10^k. -/
def decMantissa? (cs : List Char) : Option (Nat × Nat) :=
  match splitFirst (fun c => c == '.') cs with
  | (ip, none) => (listToNat? 10 charDigit? ip).map (fun n => (n, 0))
  | (ip, some fp) =>
    if ip.isEmpty && fp.isEmpty then none
    else
      let ipart := if ip.isEmpty then some 0 else listToNat? 10 charDigit? ip
      let fpart := if fp.isEmpty then some 0 else listToNat? 10 charDigit? fp
      match ipart, fpart with
      | some i, some f => some (i * 10 ^ fp.length + f, fp.length)
      | _, _ => none

/-- The exponent part after `e`/`E`: optional sign, then digits. -/
def expVal? : List Char → Option Int
  | '-' :: rest => (listToNat? 10 charDigit? rest).map (fun n => -(n : Int))
  | '+' :: rest => (listToNat? 10 charDigit? rest).map (fun n => (n : Int))
  | cs => (listToNat? 10 charDigit? cs).map (fun n => (n : Int))

/-- Classify the exact decimal value (-1)^neg * m / 10^k * 10^e: a
finite integer when 10^(k-e) divides m, otherwise non-integral.  The
IEEE-754 rounding of the literal to a double is not modelled: it only
diverges from the exact value on literals with more significant digits
than a double holds, which no `remote-<serial id>` reference reaches. -/
def classifyDec (neg : Bool) (m k : Nat) (e : Int) : JSNumber :=
  let sh : Int := e - (k : Int)
  let mi : Int := if neg then -(m : Int) else (m : Int)
  if 0 ≤ sh then .intVal (mi * 10 ^ sh.toNat)
  else if m % 10 ^ (-sh).toNat == 0 then .intVal (mi / (10 ^ (-sh).toNat : Nat))
  else .nonIntegral

/-- A signless decimal literal or `Infinity`, with the sign already
split off. -/
def unsignedDec (neg : Bool) (cs : List Char) : JSNumber :=
  if cs == "Infinity".data then .nonIntegral
  else
    match splitFirst (fun c => c == 'e' || c == 'E') cs with
    | (m, none) =>
      match decMantissa? m with
      | some (mv, k) => classifyDec neg mv k 0
      | none => .nan
    | (m, some ex) =>
      match decMantissa? m, expVal? ex with
      | some (mv, k), some e => classifyDec neg mv k e
      | _, _ => .nan

/-- A radix literal body (`0x…`, `0o…`, `0b…`): digits of that base. -/
def radixNum (base : Nat) (digit? : Char → Option Nat) (cs : List Char) : JSNumber :=
  match listToNat? base digit? cs with
  | some n => .intVal (n : Int)
  | none => .nan

/-- A StrDecimalLiteral with its optional sign (radix literals take no
sign in JS). -/
def signedDec : List Char → JSNumber
  | '-' :: rest => unsignedDec true rest
  | '+' :: rest => unsignedDec false rest
  | cs => unsignedDec false cs

/-- JS `Number(string)`: trim whitespace, empty converts to 0, then a
hex/octal/binary literal or a signed decimal literal (optional fraction
and exponent, `Infinity`); anything else is NaN. -/
def jsNumber (s : String) : JSNumber :=
  match (jsTrim s).data with
  | [] => .intVal 0
  | '0' :: 'x' :: rest => radixNum 16 hexDigit? rest
  | '0' :: 'X' :: rest => radixNum 16 hexDigit? rest
  | '0' :: 'o' :: rest => radixNum 8 octDigit? rest
  | '0' :: 'O' :: rest => radixNum 8 octDigit? rest
  | '0' :: 'b' :: rest => radixNum 2 binDigit? rest
  | '0' :: 'B' :: rest => radixNum 2 binDigit? rest
  | cs => signedDec cs

/-- `patterns.id` is a 32-bit serial key: only parameters in its range
bind; anything else makes the query throw. -/
def int4InRange (n : Int) : Bool :=
  -2147483648 ≤ n && n ≤ 2147483647

/-- The pattern lookup of the share resolver for a public preset: only a
`pattern_id` of the form `remote-<suffix>` is looked up
(`preset.pattern_id.replace('remote-', '')` drops the prefix, here via
dropping 7 characters since the `startsWith` guard holds); a NaN suffix
skips the query (`patternUrl` stays null); a numeric suffix is passed to
`SELECT filename FROM patterns WHERE id = $1`, which returns the row's
URL, or nothing, or — when the serialized number cannot bind to the
integral id key (non-integral, infinite, or out of range) — throws,
modelled as `.error`. -/
def resolvePatternUrl (st : Store) (base : String) (pattern_id : String) :
    Except Unit (Option String) :=
  if strStartsWith pattern_id "remote-" then
    match jsNumber (strDrop pattern_id 7) with
    | .nan => .ok none
    | .nonIntegral => .error ()
    | .intVal n =>
      if int4InRange n then
        match st.patterns.find? (fun pt => (pt.id : Int) == n) with
        | some pt => .ok (some (base ++ "/uploads/" ++ pt.filename))
        | none => .ok none
      else .error ()
  else .ok none

/-- `GET /api/share/:slug`: select by slug; a missing row and a row with
`is_public = false` take the same 404 branch.  On success the body holds
name, raw pattern reference, the opaque settings, and the pattern URL
(JSON null when unresolved); a throw from the pattern query is caught
and answered with the handler's 500. -/
def resolveShare (st : Store) (base slug : String) : Response :=
  match st.presets.find? (fun p => p.share_slug == some slug) with
  | none => msgResp 404 "Shared preset not found."
  | some preset =>
    if !preset.is_public then msgResp 404 "Shared preset not found."
    else
      match resolvePatternUrl st base preset.pattern_id with
      | .error _ => msgResp 500 "Failed to fetch shared preset."
      | .ok patternUrl =>
        ⟨200, .obj [("name", .str preset.name),
                    ("patternId", .str preset.pattern_id),
                    ("settings", preset.settings),
                    ("patternUrl",
                     match patternUrl with
                     | some url => .str url
                     | none => .null)]⟩

/-! ## Preset-store operations as a transition system -/

/-- One authenticated preset-store operation, with its request data and
the environment inputs (fresh uuid, timestamp, random slug stream) made
explicit. -/
inductive Op where
  | create (userId freshId : String) (now : Nat) (name patternId settings : JSVal)
  | share (userId pid : String) (candidates : List String) (base : String)
  | unshare (userId pid : String)
  | delete (userId pid : String)

/-- The store after one operation (the state component of each handler). -/
def applyOp (st : Store) : Op → Store
  | .create userId freshId now name patternId settings =>
    (createPreset st userId freshId now name patternId settings).2
  | .share userId pid candidates base => (sharePreset st userId pid candidates base).2
  | .unshare userId pid => (unsharePreset st userId pid).2
  | .delete userId pid => (deletePreset st userId pid).2

/-- Environment well-formedness of one operation: the uuid the database
generates for an insert does not collide with a live row id
(`gen_random_uuid`), and every slug drawn by
`crypto.randomBytes(6).toString('hex').slice(0, 10)` is a 10-character
hex string, in particular non-empty.  Unshare and delete need nothing. -/
def opOk (st : Store) : Op → Prop
  | .create _ freshId _ _ _ _ => freshId ∉ st.presets.map Preset.id
  | .share _ _ candidates _ => ∀ c ∈ candidates, c ≠ ""
  | _ => True

/-- States reachable from `st₀` by create/share/unshare/delete. -/
inductive Reachable (st₀ : Store) : Store → Prop where
  | refl : Reachable st₀ st₀
  | step {st : Store} (op : Op) : Reachable st₀ st → opOk st op →
      Reachable st₀ (applyOp st op)

/-- Two rows never carry the same slug (vacuous when either slug is null). -/
def SlugNe (p q : Preset) : Prop :=
  ∀ s : String, p.share_slug = some s → q.share_slug ≠ some s

/-- Store invariant, matching the schema and the spec:
`share_slug` unique across rows when present (`presets_share_slug_idx`),
every stored slug non-empty (slugs are 10 hex chars),
`is_public = true` implies a slug is present,
and row ids are distinct (primary key). -/
structure Inv (st : Store) : Prop where
  slug_unique : st.presets.Pairwise SlugNe
  slug_nonempty : ∀ p ∈ st.presets, p.share_slug ≠ some ""
  public_has_slug : ∀ p ∈ st.presets, p.is_public = true → p.share_slug ≠ none
  ids_nodup : (st.presets.map Preset.id).Nodup

/-- Owners survive one transition: a row in the new store with the id of
a row in the old store has that row's owner. -/
def OwnersPreserved (st st' : Store) : Prop :=
  ∀ p' ∈ st'.presets, ∀ p ∈ st.presets, p'.id = p.id → p'.user_id = p.user_id

/-! ## Helper lemmas -/

lemma shareRowUpd_id (pid uid slug : String) (p : Preset) :
    (shareRowUpd pid uid slug p).id = p.id := by
  unfold shareRowUpd; split <;> rfl

lemma shareRowUpd_user (pid uid slug : String) (p : Preset) :
    (shareRowUpd pid uid slug p).user_id = p.user_id := by
  unfold shareRowUpd; split <;> rfl

lemma unshareRowUpd_id (pid uid : String) (p : Preset) :
    (unshareRowUpd pid uid p).id = p.id := by
  unfold unshareRowUpd; split <;> rfl

lemma unshareRowUpd_user (pid uid : String) (p : Preset) :
    (unshareRowUpd pid uid p).user_id = p.user_id := by
  unfold unshareRowUpd; split <;> rfl

lemma unshareRowUpd_slug (pid uid : String) (p : Preset) :
    (unshareRowUpd pid uid p).share_slug = p.share_slug := by
  unfold unshareRowUpd; split <;> rfl

lemma presetMatch_shareRowUpd (pid uid pid' uid' slug : String) (p : Preset) :
    presetMatch pid uid (shareRowUpd pid' uid' slug p) = presetMatch pid uid p := by
  unfold presetMatch shareRowUpd; split <;> rfl

lemma presetMatch_unshareRowUpd (pid uid pid' uid' : String) (p : Preset) :
    presetMatch pid uid (unshareRowUpd pid' uid' p) = presetMatch pid uid p := by
  unfold presetMatch unshareRowUpd; split <;> rfl

/-- `find?` commutes with a row update that does not move rows across the
predicate. -/
lemma find?_map_comm (f : Preset → Preset) (c : Preset → Bool)
    (hf : ∀ p, c (f p) = c p) (l : List Preset) :
    (l.map f).find? c = (l.find? c).map f := by
  induction l with
  | nil => rfl
  | cons x xs ih =>
    by_cases hx : c x
    · rw [List.map_cons, List.find?_cons_of_pos _ (by rw [hf]; exact hx),
        List.find?_cons_of_pos _ hx]
      rfl
    · rw [List.map_cons, List.find?_cons_of_neg _ (by rw [hf]; simpa using hx),
        List.find?_cons_of_neg _ (by simpa using hx), ih]

/-- With distinct row ids, at most one row matches an id+owner selection. -/
lemma countP_presetMatch_le_one (l : List Preset) (pid uid : String)
    (h : (l.map Preset.id).Nodup) : l.countP (presetMatch pid uid) ≤ 1 := by
  have h1 : l.countP (presetMatch pid uid) ≤ l.countP (fun p => p.id == pid) := by
    refine List.countP_mono_left ?_
    intro p _ hp
    unfold presetMatch at hp
    exact (Bool.and_eq_true_iff.mp hp).1
  have h2 : l.countP (fun p => p.id == pid) = (l.map Preset.id).countP (· == pid) := by
    rw [List.countP_map]; rfl
  have h3 : (l.map Preset.id).countP (· == pid) ≤ 1 := by
    rw [← List.count_eq_countP]
    exact List.nodup_iff_count_le_one.mp h pid
  omega

/-- With distinct row ids, two rows matching the same id+owner selection
are the same row. -/
lemma presetMatch_unique (l : List Preset) (pid uid : String)
    (h : (l.map Preset.id).Nodup) {p q : Preset} (hp : p ∈ l) (hq : q ∈ l)
    (hmp : presetMatch pid uid p = true) (hmq : presetMatch pid uid q = true) :
    p = q := by
  refine List.inj_on_of_nodup_map h hp hq ?_
  unfold presetMatch at hmp hmq
  have e1 : p.id = pid := by simpa using (Bool.and_eq_true_iff.mp hmp).1
  have e2 : q.id = pid := by simpa using (Bool.and_eq_true_iff.mp hmq).1
  rw [e1, e2]

/-- A successfully generated slug is untaken at generation time and one of
the at most five candidates tried. -/
lemma generateUniqueShareSlug_spec (st : Store) (candidates : List String)
    (slug : String) (h : generateUniqueShareSlug st candidates = some slug) :
    slugTaken st slug = false ∧ slug ∈ candidates.take 5 := by
  unfold generateUniqueShareSlug at h
  refine ⟨?_, List.mem_of_find?_eq_some h⟩
  have := List.find?_some h
  simpa using this

/-- If each of the first five candidates is taken, generation throws. -/
lemma generateUniqueShareSlug_exhausted (st : Store) (candidates : List String)
    (h : ∀ c ∈ candidates.take 5, slugTaken st c = true) :
    generateUniqueShareSlug st candidates = none := by
  unfold generateUniqueShareSlug
  rw [List.find?_eq_none]
  intro c hc
  simp [h c hc]

/-- An untaken slug is carried by no row. -/
lemma not_slugTaken_iff (st : Store) (slug : String) :
    slugTaken st slug = false ↔ ∀ p ∈ st.presets, p.share_slug ≠ some slug := by
  unfold slugTaken
  rw [List.any_eq_false]
  constructor
  · intro h p hp
    have := h p hp
    simpa using this
  · intro h p hp
    simpa using h p hp

/-- Case analysis on the slug the share handler settles on: either the
row already carried it (and it is non-empty, by the JS falsiness check),
or it was freshly generated. -/
lemma shareSlugChoice_cases (st : Store) (cur : Option String)
    (candidates : List String) (slug : String)
    (h : shareSlugChoice st cur candidates = some slug) :
    (cur = some slug ∧ slug ≠ "") ∨
      (slugTaken st slug = false ∧ slug ∈ candidates.take 5) := by
  cases cur with
  | none =>
    simp only [shareSlugChoice] at h
    exact Or.inr (generateUniqueShareSlug_spec st candidates slug h)
  | some s =>
    simp only [shareSlugChoice] at h
    by_cases hs : s == ""
    · rw [if_pos hs] at h
      exact Or.inr (generateUniqueShareSlug_spec st candidates slug h)
    · rw [if_neg hs] at h
      obtain rfl : s = slug := by simpa using h
      exact Or.inl ⟨rfl, by simpa using hs⟩

/-- A row update that leaves every slug unchanged preserves slug
distinctness. -/
lemma pairwise_slugNe_map_of_slug_eq (f : Preset → Preset) (l : List Preset)
    (hf : ∀ p ∈ l, (f p).share_slug = p.share_slug)
    (h : l.Pairwise SlugNe) : (l.map f).Pairwise SlugNe := by
  rw [List.pairwise_map]
  refine h.imp_of_mem ?_
  intro a b ha hb hab s hs
  rw [hf a ha] at hs
  rw [hf b hb]
  exact hab s hs

/-- Stamping a slug that no row carries onto the (at most one) selected
row preserves slug distinctness. -/
lemma pairwise_slugNe_share_fresh (pid uid slug : String) (l : List Preset)
    (hpair : l.Pairwise SlugNe) (hcount : l.countP (presetMatch pid uid) ≤ 1)
    (hfresh : ∀ p ∈ l, p.share_slug ≠ some slug) :
    (l.map (shareRowUpd pid uid slug)).Pairwise SlugNe := by
  induction l with
  | nil => simp
  | cons x xs ih =>
    rw [List.pairwise_cons] at hpair
    obtain ⟨hx, hxs⟩ := hpair
    rw [List.map_cons, List.pairwise_cons]
    by_cases hcx : presetMatch pid uid x = true
    · have hzero : xs.countP (presetMatch pid uid) = 0 := by
        rw [List.countP_cons_of_pos _ _ hcx] at hcount
        omega
      have hxsnomatch : ∀ y ∈ xs, ¬ presetMatch pid uid y = true :=
        List.countP_eq_zero.mp hzero
      have hmapid : xs.map (shareRowUpd pid uid slug) = xs := by
        have hcong : ∀ y ∈ xs, shareRowUpd pid uid slug y = id y := by
          intro y hy
          unfold shareRowUpd
          rw [if_neg (hxsnomatch y hy)]
          rfl
        rw [List.map_congr_left hcong, List.map_id]
      refine ⟨?_, ?_⟩
      · intro y hy s hs
        rw [hmapid] at hy
        have hslug : s = slug := by
          unfold shareRowUpd at hs
          rw [if_pos hcx] at hs
          simpa using hs.symm
        subst hslug
        exact hfresh y (List.mem_cons_of_mem x hy)
      · rw [hmapid]
        exact hxs
    · have hxid : shareRowUpd pid uid slug x = x := by
        unfold shareRowUpd
        rw [if_neg hcx]
      have hcount' : xs.countP (presetMatch pid uid) ≤ 1 := by
        rw [List.countP_cons_of_neg _ _ (by simpa using hcx)] at hcount
        exact hcount
      have hfresh' : ∀ p ∈ xs, p.share_slug ≠ some slug :=
        fun p hp => hfresh p (List.mem_cons_of_mem x hp)
      refine ⟨?_, ih hxs hcount' hfresh'⟩
      intro y' hy'
      rw [List.mem_map] at hy'
      obtain ⟨y, hy, rfl⟩ := hy'
      rw [hxid]
      intro s hs
      by_cases hcy : presetMatch pid uid y = true
      · unfold shareRowUpd
        rw [if_pos hcy]
        intro hcontra
        have : s = slug := by simpa using hcontra.symm
        subst this
        exact hfresh x (List.mem_cons_self x xs) hs
      · unfold shareRowUpd
        rw [if_neg hcy]
        exact hx y hy s hs

/-- Creating a preset preserves the store invariant: the new row is
private, slugless, and carries a fresh id. -/
lemma inv_createPreset (st : Store) (userId freshId : String) (now : Nat)
    (name patternId settings : JSVal) (hInv : Inv st)
    (hfresh : freshId ∉ st.presets.map Preset.id) :
    Inv (createPreset st userId freshId now name patternId settings).2 := by
  unfold createPreset
  by_cases hv : createValid name patternId settings = true
  · rw [if_neg (by simp [hv])]
    dsimp only
    constructor
    · rw [List.pairwise_append]
      refine ⟨hInv.slug_unique, List.pairwise_singleton _ _, ?_⟩
      intro a _ b hb s hs
      have : b = { id := freshId, user_id := userId, name := jsTrim (jsStr name),
                   pattern_id := jsStr patternId, settings := jsonbNorm settings,
                   is_public := false, share_slug := none, created_at := now } := by
        simpa using hb
      rw [this]
      intro hcontra
      simp at hcontra
    · intro p hp
      rw [List.mem_append] at hp
      rcases hp with hp | hp
      · exact hInv.slug_nonempty p hp
      · have : p.share_slug = none := by
          have := List.mem_singleton.mp hp
          rw [this]
        rw [this]
        simp
    · intro p hp hpub
      rw [List.mem_append] at hp
      rcases hp with hp | hp
      · exact hInv.public_has_slug p hp hpub
      · have := List.mem_singleton.mp hp
        rw [this] at hpub
        simp at hpub
    · rw [List.map_append, List.nodup_append]
      refine ⟨hInv.ids_nodup, List.nodup_singleton _, ?_⟩
      intro a ha hb
      have : a = freshId := by simpa using hb
      rw [this] at ha
      exact hfresh ha
  · rw [if_pos (by simp [hv])]
    exact hInv

/-- Sharing a preset preserves the store invariant. -/
lemma inv_sharePreset (st : Store) (userId pid : String)
    (candidates : List String) (base : String) (hInv : Inv st)
    (hcand : ∀ c ∈ candidates, c ≠ "") :
    Inv (sharePreset st userId pid candidates base).2 := by
  unfold sharePreset
  cases hfind : st.presets.find? (presetMatch pid userId) with
  | none => exact hInv
  | some row =>
    dsimp only
    cases hchoice : shareSlugChoice st row.share_slug candidates with
    | none => exact hInv
    | some slug =>
      dsimp only
      have hrowmem : row ∈ st.presets := List.mem_of_find?_eq_some hfind
      have hrowmatch : presetMatch pid userId row = true := List.find?_some hfind
      have hids : ((st.presets.map (shareRowUpd pid userId slug)).map Preset.id)
          = st.presets.map Preset.id := by
        rw [List.map_map]
        exact List.map_congr_left (fun p _ => shareRowUpd_id pid userId slug p)
      have hslugne : slug ≠ "" := by
        rcases shareSlugChoice_cases st row.share_slug candidates slug hchoice with
          ⟨_, hne⟩ | ⟨_, hmem⟩
        · exact hne
        · exact hcand slug (List.mem_of_mem_take hmem)
      constructor
      · rcases shareSlugChoice_cases st row.share_slug candidates slug hchoice with
          ⟨hcur, _⟩ | ⟨hfree, _⟩
        · -- reuse: every matching row (there is exactly one) already carries `slug`
          refine pairwise_slugNe_map_of_slug_eq _ _ ?_ hInv.slug_unique
          intro p hp
          unfold shareRowUpd
          by_cases hc : presetMatch pid userId p = true
          · rw [if_pos hc]
            have : p = row := presetMatch_unique st.presets pid userId
              hInv.ids_nodup hp hrowmem hc hrowmatch
            rw [this, hcur]
          · rw [if_neg hc]
        · -- fresh: no row carries `slug`
          exact pairwise_slugNe_share_fresh pid userId slug st.presets
            hInv.slug_unique
            (countP_presetMatch_le_one st.presets pid userId hInv.ids_nodup)
            ((not_slugTaken_iff st slug).mp hfree)
      · intro p hp
        rw [List.mem_map] at hp
        obtain ⟨q, hq, rfl⟩ := hp
        unfold shareRowUpd
        by_cases hc : presetMatch pid userId q = true
        · rw [if_pos hc]
          intro hcontra
          exact hslugne (by simpa using hcontra)
        · rw [if_neg hc]
          exact hInv.slug_nonempty q hq
      · intro p hp hpub
        rw [List.mem_map] at hp
        obtain ⟨q, hq, rfl⟩ := hp
        unfold shareRowUpd
        by_cases hc : presetMatch pid userId q = true
        · rw [if_pos hc]
          simp
        · rw [if_neg hc]
          unfold shareRowUpd at hpub
          rw [if_neg hc] at hpub
          exact hInv.public_has_slug q hq hpub
      · rw [hids]
        exact hInv.ids_nodup

/-- Unsharing a preset preserves the store invariant (the slug column is
untouched). -/
lemma inv_unsharePreset (st : Store) (userId pid : String) (hInv : Inv st) :
    Inv (unsharePreset st userId pid).2 := by
  unfold unsharePreset
  by_cases hcount : st.presets.countP (presetMatch pid userId) == 0
  · rw [if_pos hcount]
    exact hInv
  · rw [if_neg hcount]
    dsimp only
    constructor
    · exact pairwise_slugNe_map_of_slug_eq _ _
        (fun p _ => unshareRowUpd_slug pid userId p) hInv.slug_unique
    · intro p hp
      rw [List.mem_map] at hp
      obtain ⟨q, hq, rfl⟩ := hp
      rw [unshareRowUpd_slug]
      exact hInv.slug_nonempty q hq
    · intro p hp hpub
      rw [List.mem_map] at hp
      obtain ⟨q, hq, rfl⟩ := hp
      rw [unshareRowUpd_slug]
      unfold unshareRowUpd at hpub
      by_cases hc : presetMatch pid userId q = true
      · rw [if_pos hc] at hpub
        simp at hpub
      · rw [if_neg hc] at hpub
        exact hInv.public_has_slug q hq hpub
    · rw [List.map_map]
      have : (Preset.id ∘ unshareRowUpd pid userId) = Preset.id := by
        funext p
        exact unshareRowUpd_id pid userId p
      rw [show st.presets.map (Preset.id ∘ unshareRowUpd pid userId)
            = st.presets.map Preset.id from
          List.map_congr_left (fun p _ => unshareRowUpd_id pid userId p)]
      exact hInv.ids_nodup

/-- Deleting a preset preserves the store invariant (rows only leave). -/
lemma inv_deletePreset (st : Store) (userId pid : String) (hInv : Inv st) :
    Inv (deletePreset st userId pid).2 := by
  unfold deletePreset
  by_cases hcount : st.presets.countP (presetMatch pid userId) == 0
  · rw [if_pos hcount]
    exact hInv
  · rw [if_neg hcount]
    dsimp only
    constructor
    · exact hInv.slug_unique.filter _
    · intro p hp
      exact hInv.slug_nonempty p (List.mem_of_mem_filter hp)
    · intro p hp
      exact hInv.public_has_slug p (List.mem_of_mem_filter hp)
    · exact hInv.ids_nodup.sublist ((List.filter_sublist st.presets).map Preset.id)

/-- One well-formed operation preserves the store invariant. -/
lemma inv_applyOp (st : Store) (op : Op) (hInv : Inv st) (hok : opOk st op) :
    Inv (applyOp st op) := by
  cases op with
  | create userId freshId now name patternId settings =>
    exact inv_createPreset st userId freshId now name patternId settings hInv hok
  | share userId pid candidates base =>
    exact inv_sharePreset st userId pid candidates base hInv hok
  | unshare userId pid => exact inv_unsharePreset st userId pid hInv
  | delete userId pid => exact inv_deletePreset st userId pid hInv

/-- With distinct row ids, a row of the old store sharing its id with a
row of the old store is that row; lifts per-row facts to
`OwnersPreserved` for the identity-or-update transitions. -/
lemma owners_of_nodup (st : Store) (hInv : Inv st) : OwnersPreserved st st := by
  intro p' hp' p hp hid
  rw [List.inj_on_of_nodup_map hInv.ids_nodup hp' hp hid]

/-- A mapped row update preserving ids and owners gives `OwnersPreserved`. -/
lemma owners_of_map (st : Store) (hInv : Inv st) (f : Preset → Preset)
    (hid : ∀ p, (f p).id = p.id) (huser : ∀ p, (f p).user_id = p.user_id)
    (st' : Store) (hst' : st'.presets = st.presets.map f) :
    OwnersPreserved st st' := by
  intro p' hp' p hp hpid
  rw [hst'] at hp'
  rw [List.mem_map] at hp'
  obtain ⟨q, hq, rfl⟩ := hp'
  rw [huser q]
  rw [hid q] at hpid
  rw [List.inj_on_of_nodup_map hInv.ids_nodup hq hp hpid]

/-- One well-formed operation never reassigns a preset owner. -/
lemma owners_applyOp (st : Store) (op : Op) (hInv : Inv st) (hok : opOk st op) :
    OwnersPreserved st (applyOp st op) := by
  cases op with
  | create userId freshId now name patternId settings =>
    show OwnersPreserved st (createPreset st userId freshId now name patternId settings).2
    unfold createPreset
    by_cases hv : createValid name patternId settings = true
    · rw [if_neg (by simp [hv])]
      intro p' hp' p hp hpid
      dsimp only at hp'
      rw [List.mem_append] at hp'
      rcases hp' with hp' | hp'
      · exact owners_of_nodup st hInv p' hp' p hp hpid
      · have hidf : p'.id = freshId := by
          have := List.mem_singleton.mp hp'
          rw [this]
        exfalso
        apply hok
        rw [List.mem_map]
        exact ⟨p, hp, by rw [← hpid, hidf]⟩
    · rw [if_pos (by simp [hv])]
      exact owners_of_nodup st hInv
  | share userId pid candidates base =>
    show OwnersPreserved st (sharePreset st userId pid candidates base).2
    unfold sharePreset
    cases hfind : st.presets.find? (presetMatch pid userId) with
    | none => exact owners_of_nodup st hInv
    | some row =>
      dsimp only
      cases hchoice : shareSlugChoice st row.share_slug candidates with
      | none => exact owners_of_nodup st hInv
      | some slug =>
        exact owners_of_map st hInv (shareRowUpd pid userId slug)
          (shareRowUpd_id pid userId slug) (shareRowUpd_user pid userId slug) _ rfl
  | unshare userId pid =>
    show OwnersPreserved st (unsharePreset st userId pid).2
    unfold unsharePreset
    by_cases hcount : st.presets.countP (presetMatch pid userId) == 0
    · rw [if_pos hcount]
      exact owners_of_nodup st hInv
    · rw [if_neg hcount]
      exact owners_of_map st hInv (unshareRowUpd pid userId)
        (unshareRowUpd_id pid userId) (unshareRowUpd_user pid userId) _ rfl
  | delete userId pid =>
    show OwnersPreserved st (deletePreset st userId pid).2
    unfold deletePreset
    by_cases hcount : st.presets.countP (presetMatch pid userId) == 0
    · rw [if_pos hcount]
      exact owners_of_nodup st hInv
    · rw [if_neg hcount]
      intro p' hp' p hp hpid
      exact owners_of_nodup st hInv p' (List.mem_of_mem_filter hp') p hp hpid

/-! ## Concrete data for witnesses -/

/-- A concrete opaque settings payload. -/
def demoSettings : JSVal :=
  .obj [("scale", .num 2), ("lightingPreset", .str "dramatic"), ("transparentBg", .bool true)]

/-- A private preset that has been shared and unshared (slug retained). -/
def demoPrivate : Preset :=
  { id := "p1", user_id := "u1", name := "Cheetah Large", pattern_id := "cheetah",
    settings := demoSettings, is_public := false, share_slug := some "privslug99",
    created_at := 0 }

/-- A public preset referencing an uploaded pattern. -/
def demoPublic : Preset :=
  { id := "p2", user_id := "u1", name := "Leo", pattern_id := "remote-1",
    settings := demoSettings, is_public := true, share_slug := some "pubslug000",
    created_at := 1 }

/-- A concrete store instantiating the theorems. -/
def demoStore : Store :=
  { users := [⟨"u1", "a@b.c", "hash1"⟩],
    patterns := [⟨1, "u1", "170-cat.png", 5⟩],
    presets := [demoPrivate, demoPublic] }

/-- A public preset whose pattern reference carries a fractional
suffix. -/
def demoFractional : Preset :=
  { id := "p4", user_id := "u1", name := "Frac", pattern_id := "remote-4.5",
    settings := demoSettings, is_public := true, share_slug := some "fracslug00",
    created_at := 3 }

/-- The concrete store extended with the fractional-reference preset. -/
def demoStoreFrac : Store :=
  { demoStore with presets := demoStore.presets ++ [demoFractional] }

/-- A preset that has never been shared (no slug). -/
def demoSlugless : Preset :=
  { id := "p3", user_id := "u1", name := "Plain", pattern_id := "stripes",
    settings := demoSettings, is_public := false, share_slug := none,
    created_at := 2 }

/-- The concrete store extended with a never-shared preset. -/
def demoWithSlugless : Store :=
  { demoStore with presets := demoStore.presets ++ [demoSlugless] }

/-! ## Claims -/

/-- C1: for every slug, `GET /api/share/:slug` answers with the same
404 `Shared preset not found.` response both when no preset carries the
slug and when the preset found under it has `is_public = false`, so a
caller cannot distinguish a private preset from a non-existent one. -/
theorem C1_resolve_notfound_indistinguishable (st : Store) (base slug : String) :
    ((∀ p ∈ st.presets, p.share_slug ≠ some slug) →
      resolveShare st base slug = msgResp 404 "Shared preset not found.") ∧
    (∀ p, st.presets.find? (fun q => q.share_slug == some slug) = some p →
      p.is_public = false →
      resolveShare st base slug = msgResp 404 "Shared preset not found.") := by
  constructor
  · intro h
    unfold resolveShare
    have hnone : st.presets.find? (fun q => q.share_slug == some slug) = none := by
      rw [List.find?_eq_none]
      intro p hp
      simpa using h p hp
    rw [hnone]
  · intro p hfind hpriv
    unfold resolveShare
    rw [hfind]
    dsimp only
    rw [hpriv]
    simp

/-- Witness for C1 on a concrete store: an unknown slug and the slug of a
private preset produce the same 404 response. -/
theorem C1_witness :
    ((∀ p ∈ demoStore.presets, p.share_slug ≠ some "nosuchslug") ∧
      resolveShare demoStore "http://h" "nosuchslug"
        = msgResp 404 "Shared preset not found.") ∧
    (demoStore.presets.find? (fun q => q.share_slug == some "privslug99")
        = some demoPrivate ∧
      demoPrivate.is_public = false ∧
      resolveShare demoStore "http://h" "privslug99"
        = msgResp 404 "Shared preset not found.") := by
  refine ⟨⟨?_, ?_⟩, ?_, ?_, ?_⟩
  · decide
  · exact (C1_resolve_notfound_indistinguishable demoStore "http://h" "nosuchslug").1
      (by decide)
  · rfl
  · decide
  · exact (C1_resolve_notfound_indistinguishable demoStore "http://h" "privslug99").2
      demoPrivate rfl (by decide)

/-- C4: starting from a store satisfying the schema invariant, any
sequence of create/share/unshare/delete operations preserves it —
`share_slug` unique across presets when present, `is_public = true`
implies a slug is present — and no single well-formed operation changes
the owning `user_id` of a surviving preset row. -/
theorem C4_preset_invariants (st₀ st : Store) (h₀ : Inv st₀)
    (h : Reachable st₀ st) :
    Inv st ∧ ∀ op, opOk st op → OwnersPreserved st (applyOp st op) := by
  induction h with
  | refl => exact ⟨h₀, fun op hop => owners_applyOp st₀ op h₀ hop⟩
  | step op _ hok ih =>
    have hInv := inv_applyOp _ op ih.1 hok
    exact ⟨hInv, fun op' hop' => owners_applyOp _ op' hInv hop'⟩

/-- Witness for C4: from the empty store, a create followed by a share
reaches a store still satisfying the invariant. -/
theorem C4_witness :
    Inv ⟨[], [], []⟩ ∧
    Inv (applyOp (applyOp ⟨[], [], []⟩
          (Op.create "u1" "p1" 0 (.str "Cheetah") (.str "cheetah") (.obj [])))
        (Op.share "u1" "p1" ["abcdef1234"] "http://localhost:4000")) := by
  have h₀ : Inv ⟨[], [], []⟩ := by
    constructor <;> simp [Inv]
  refine ⟨h₀, ?_⟩
  refine (C4_preset_invariants ⟨[], [], []⟩ _ h₀
    (Reachable.step _ (Reachable.step _ Reachable.refl ?_) ?_)).1
  · simp [opOk]
  · intro c hc
    simp at hc
    subst hc
    decide

/-- C5: for every login request with non-empty email and password, an
unknown email and a wrong password produce the same 401 response with
the same generic `Invalid credentials.` message, so the two failure
causes are indistinguishable. -/
theorem C5_login_failures_indistinguishable (bc : String → String → Bool)
    (sign : String → String → String) (st : Store) (email password : String)
    (hemail : email ≠ "") (hpw : password ≠ "") :
    (st.users.find? (fun u => u.email == email) = none →
      login bc sign st email password = msgResp 401 "Invalid credentials.") ∧
    (∀ u, st.users.find? (fun u => u.email == email) = some u →
      bc password u.password_hash = false →
      login bc sign st email password = msgResp 401 "Invalid credentials.") := by
  have hguard : ¬ ((email == "" || password == "") = true) := by
    simp [hemail, hpw]
  constructor
  · intro h
    unfold login
    rw [if_neg hguard, h]
  · intro u hfind hbc
    unfold login
    rw [if_neg hguard, hfind]
    dsimp only
    rw [if_neg (by simp [hbc])]

/-- Witness for C5: on a concrete store, logging in with an unknown email
and with a wrong password for a known email give the identical response. -/
theorem C5_witness :
    ("zz@b.c" : String) ≠ "" ∧ ("pw" : String) ≠ "" ∧
    login (fun _ _ => false) (fun _ _ => "tok") demoStore "zz@b.c" "pw"
      = msgResp 401 "Invalid credentials." ∧
    login (fun _ _ => false) (fun _ _ => "tok") demoStore "a@b.c" "pw"
      = msgResp 401 "Invalid credentials." := by
  refine ⟨by decide, by decide, ?_, ?_⟩
  · exact (C5_login_failures_indistinguishable (fun _ _ => false) (fun _ _ => "tok")
      demoStore "zz@b.c" "pw" (by decide) (by decide)).1 rfl
  · exact (C5_login_failures_indistinguishable (fun _ _ => false) (fun _ _ => "tok")
      demoStore "a@b.c" "pw" (by decide) (by decide)).2 ⟨"u1", "a@b.c", "hash1"⟩ rfl rfl

/-- C7: `DELETE /api/presets/:id` answers 404 when no row matches the id
and caller, and otherwise answers `{ ok: true }` with status 200 and
removes the matching row; hence deleting the same owned preset twice
gives 200 then 404. -/
theorem C7_delete_twice (st : Store) (uid pid : String) :
    ((∀ p ∈ st.presets, ¬ presetMatch pid uid p = true) →
      deletePreset st uid pid = (msgResp 404 "Preset not found.", st)) ∧
    (∀ p ∈ st.presets, presetMatch pid uid p = true →
      (deletePreset st uid pid).1 = ⟨200, .obj [("ok", .bool true)]⟩ ∧
      (deletePreset st uid pid).2.presets
        = st.presets.filter (fun q => !presetMatch pid uid q) ∧
      deletePreset (deletePreset st uid pid).2 uid pid
        = (msgResp 404 "Preset not found.", (deletePreset st uid pid).2)) := by
  constructor
  · intro h
    unfold deletePreset
    rw [if_pos (by simp [List.countP_eq_zero.mpr h])]
  · intro p hp hm
    have hpos : ¬ ((st.presets.countP (presetMatch pid uid) == 0) = true) := by
      have h1 : 0 < st.presets.countP (presetMatch pid uid) :=
        List.countP_pos_iff.mpr ⟨p, hp, hm⟩
      intro hcontra
      rw [Nat.beq_eq_true_eq] at hcontra
      omega
    have hafter : ∀ q ∈ st.presets.filter (fun q => !presetMatch pid uid q),
        ¬ presetMatch pid uid q = true := by
      intro q hq
      have := (List.mem_filter.mp hq).2
      simpa using this
    refine ⟨?_, ?_, ?_⟩
    · unfold deletePreset
      rw [if_neg hpos]
    · unfold deletePreset
      rw [if_neg hpos]
    · have hstate : (deletePreset st uid pid).2.presets
          = st.presets.filter (fun q => !presetMatch pid uid q) := by
        unfold deletePreset
        rw [if_neg hpos]
      unfold deletePreset
      rw [if_neg hpos]
      dsimp only
      rw [if_pos]
      simp [List.countP_eq_zero.mpr hafter]

/-- Witness for C7: deleting an existing owned preset of the concrete
store twice gives 200 then 404. -/
theorem C7_witness :
    presetMatch "p1" "u1" demoPrivate = true ∧
    (deletePreset demoStore "u1" "p1").1 = ⟨200, .obj [("ok", .bool true)]⟩ ∧
    deletePreset (deletePreset demoStore "u1" "p1").2 "u1" "p1"
      = (msgResp 404 "Preset not found.", (deletePreset demoStore "u1" "p1").2) := by
  have h := (C7_delete_twice demoStore "u1" "p1").2 demoPrivate
    (List.mem_cons_self demoPrivate [demoPublic]) (by decide)
  exact ⟨by decide, h.1, h.2.2⟩

/-- C3: once a share of an owned preset has succeeded, sharing it again
returns the very same response (in particular the same slug), and
unsharing then re-sharing also returns that response: the slug is
retained by unshare and reused instead of regenerated. -/
theorem C3_share_slug_stable (st : Store) (uid pid base : String)
    (cands₁ cands₂ cands₃ : List String) (row : Preset)
    (hfind : st.presets.find? (presetMatch pid uid) = some row)
    (hcand : ∀ c ∈ cands₁, c ≠ "")
    (hok : (sharePreset st uid pid cands₁ base).1.status = 200) :
    (sharePreset (sharePreset st uid pid cands₁ base).2 uid pid cands₂ base).1
      = (sharePreset st uid pid cands₁ base).1 ∧
    (sharePreset (unsharePreset (sharePreset st uid pid cands₁ base).2 uid pid).2
        uid pid cands₃ base).1
      = (sharePreset st uid pid cands₁ base).1 := by
  cases hchoice : shareSlugChoice st row.share_slug cands₁ with
  | none =>
    exfalso
    have h500 : (sharePreset st uid pid cands₁ base).1
        = msgResp 500 "Failed to share preset." := by
      unfold sharePreset
      rw [hfind]
      dsimp only
      rw [hchoice]
    rw [h500] at hok
    simp [msgResp] at hok
  | some slug =>
    have hresp : sharePreset st uid pid cands₁ base
        = (shareResp base slug,
           { st with presets := st.presets.map (shareRowUpd pid uid slug) }) := by
      unfold sharePreset
      rw [hfind]
      dsimp only
      rw [hchoice]
    have hslugne : slug ≠ "" := by
      rcases shareSlugChoice_cases st row.share_slug cands₁ slug hchoice with
        ⟨_, h⟩ | ⟨_, hmem⟩
      · exact h
      · exact hcand slug (List.mem_of_mem_take hmem)
    have hrowmatch : presetMatch pid uid row = true := List.find?_some hfind
    have hrowmem : row ∈ st.presets := List.mem_of_find?_eq_some hfind
    have hfind₁ : (st.presets.map (shareRowUpd pid uid slug)).find? (presetMatch pid uid)
        = some (shareRowUpd pid uid slug row) := by
      rw [find?_map_comm _ _ (fun p => presetMatch_shareRowUpd pid uid pid uid slug p) _,
        hfind]
      rfl
    have hupdslug : (shareRowUpd pid uid slug row).share_slug = some slug := by
      unfold shareRowUpd
      rw [if_pos hrowmatch]
    have hchoice₂ : ∀ (st' : Store) (cands' : List String),
        shareSlugChoice st' (some slug) cands' = some slug := by
      intro st' cands'
      simp only [shareSlugChoice]
      rw [if_neg (by simpa using hslugne)]
    constructor
    · rw [hresp]
      unfold sharePreset
      dsimp only
      rw [hfind₁]
      dsimp only
      rw [hupdslug, hchoice₂]
    · rw [hresp]
      dsimp only
      have hcount₁ : ¬ (((st.presets.map (shareRowUpd pid uid slug)).countP
          (presetMatch pid uid) == 0) = true) := by
        have h1 : 0 < (st.presets.map (shareRowUpd pid uid slug)).countP
            (presetMatch pid uid) := by
          refine List.countP_pos_iff.mpr ?_
          refine ⟨shareRowUpd pid uid slug row, List.mem_map_of_mem _ hrowmem, ?_⟩
          rw [presetMatch_shareRowUpd]
          exact hrowmatch
        intro hc
        rw [Nat.beq_eq_true_eq] at hc
        omega
      have hunshare : (unsharePreset
          { st with presets := st.presets.map (shareRowUpd pid uid slug) } uid pid).2
          = { st with
              presets := (st.presets.map (shareRowUpd pid uid slug)).map
                           (unshareRowUpd pid uid) } := by
        unfold unsharePreset
        rw [if_neg hcount₁]
      rw [hunshare]
      have hfind₂ : ((st.presets.map (shareRowUpd pid uid slug)).map
          (unshareRowUpd pid uid)).find? (presetMatch pid uid)
          = some (unshareRowUpd pid uid (shareRowUpd pid uid slug row)) := by
        rw [find?_map_comm _ _ (fun p => presetMatch_unshareRowUpd pid uid pid uid p) _,
          hfind₁]
        rfl
      have hslug₂ : (unshareRowUpd pid uid (shareRowUpd pid uid slug row)).share_slug
          = some slug := by
        rw [unshareRowUpd_slug, hupdslug]
      unfold sharePreset
      dsimp only
      rw [hfind₂]
      dsimp only
      rw [hslug₂, hchoice₂]

/-- Witness for C3: on the concrete store, sharing the already-slugged
private preset succeeds, and the second share as well as the
unshare-then-share both return the first response. -/
theorem C3_witness :
    demoStore.presets.find? (presetMatch "p1" "u1") = some demoPrivate ∧
    (sharePreset demoStore "u1" "p1" ["cand123456"] "http://h").1.status = 200 ∧
    (sharePreset (sharePreset demoStore "u1" "p1" ["cand123456"] "http://h").2
        "u1" "p1" [] "http://h").1
      = (sharePreset demoStore "u1" "p1" ["cand123456"] "http://h").1 ∧
    (sharePreset (unsharePreset
          (sharePreset demoStore "u1" "p1" ["cand123456"] "http://h").2 "u1" "p1").2
        "u1" "p1" [] "http://h").1
      = (sharePreset demoStore "u1" "p1" ["cand123456"] "http://h").1 := by
  have h := C3_share_slug_stable demoStore "u1" "p1" "http://h" ["cand123456"] [] []
    demoPrivate rfl
    (by intro c hc; simp at hc; subst hc; decide)
    (by decide)
  exact ⟨rfl, by decide, h.1, h.2⟩

/-- C8: a successfully generated share slug is absent from the store at
generation time and is one of the at most five candidates tried; if all
five attempts collide, generation fails, and a share request needing a
new slug then answers 500 Internal. -/
theorem C8_slug_generation (st : Store) (cands : List String) :
    (∀ slug, generateUniqueShareSlug st cands = some slug →
      slugTaken st slug = false ∧ (∀ p ∈ st.presets, p.share_slug ≠ some slug) ∧
      slug ∈ cands.take 5) ∧
    ((∀ c ∈ cands.take 5, slugTaken st c = true) →
      generateUniqueShareSlug st cands = none) ∧
    (∀ uid pid base row, st.presets.find? (presetMatch pid uid) = some row →
      row.share_slug = none →
      generateUniqueShareSlug st cands = none →
      sharePreset st uid pid cands base
        = (msgResp 500 "Failed to share preset.", st)) := by
  refine ⟨?_, ?_, ?_⟩
  · intro slug h
    obtain ⟨h1, h2⟩ := generateUniqueShareSlug_spec st cands slug h
    exact ⟨h1, (not_slugTaken_iff st slug).mp h1, h2⟩
  · exact generateUniqueShareSlug_exhausted st cands
  · intro uid pid base row hfind hnone hgen
    unfold sharePreset
    rw [hfind]
    dsimp only
    rw [hnone]
    simp only [shareSlugChoice]
    rw [hgen]

/-- Witness for C8: on the concrete store, a candidate list whose five
draws all collide with the stored slugs makes generation fail, and a
share of a slugless preset answers 500. -/
theorem C8_witness :
    (∀ c ∈ (["privslug99", "pubslug000", "privslug99", "pubslug000",
        "privslug99"] : List String).take 5, slugTaken demoWithSlugless c = true) ∧
    generateUniqueShareSlug demoWithSlugless
        ["privslug99", "pubslug000", "privslug99", "pubslug000", "privslug99"] = none ∧
    sharePreset demoWithSlugless "u1" "p3"
        ["privslug99", "pubslug000", "privslug99", "pubslug000", "privslug99"] "http://h"
      = (msgResp 500 "Failed to share preset.", demoWithSlugless) := by
  have h := C8_slug_generation demoWithSlugless
    ["privslug99", "pubslug000", "privslug99", "pubslug000", "privslug99"]
  refine ⟨by decide, h.2.1 (by decide), ?_⟩
  exact h.2.2 "u1" "p3" "http://h" demoSlugless rfl rfl (h.2.1 (by decide))

/-- C9 counterexample: the valid payload with settings
`{lightingPreset: "flat", scale: 2}` is persisted, but the `jsonb`
column reorders the keys into storage order (shorter first), so the
fetched settings value is `{scale: 2, lightingPreset: "flat"}` — not
byte-identical to the supplied one. -/
theorem C9_counterexample :
    createValid (.str "Leo") (.str "cheetah")
        (.obj [("lightingPreset", .str "flat"), ("scale", .num 2)]) = true ∧
    jsGet (getPreset (createPreset ⟨[], [], []⟩ "u1" "p1" 0 (.str "Leo")
        (.str "cheetah")
        (.obj [("lightingPreset", .str "flat"), ("scale", .num 2)])).2
        "u1" "p1").body "settings"
      = some (.obj [("scale", .num 2), ("lightingPreset", .str "flat")]) ∧
    jsGet (getPreset (createPreset ⟨[], [], []⟩ "u1" "p1" 0 (.str "Leo")
        (.str "cheetah")
        (.obj [("lightingPreset", .str "flat"), ("scale", .num 2)])).2
        "u1" "p1").body "settings"
      ≠ some (.obj [("lightingPreset", .str "flat"), ("scale", .num 2)]) := by
  refine ⟨by decide, rfl, ?_⟩
  intro h
  have h2 : (some (JSVal.obj [("scale", JSVal.num 2),
        ("lightingPreset", JSVal.str "flat")]) : Option JSVal)
      = some (JSVal.obj [("lightingPreset", JSVal.str "flat"),
        ("scale", JSVal.num 2)]) := h
  simp at h2

/-- C9 (amended): creating a preset from a valid payload and then
fetching it by id as the same user answers 200 with a `settings` value
equal to the `jsonb` normalization of the supplied settings (object
keys reordered into the storage order and duplicate keys collapsed to
the last, recursively; scalars and array order untouched); it is
byte-identical to the supplied value exactly when that value is already
in `jsonb` normal form. -/
theorem C9_create_then_get_settings (st : Store) (uid freshId : String)
    (now : Nat) (name patternId settings : JSVal)
    (hvalid : createValid name patternId settings = true)
    (hfresh : freshId ∉ st.presets.map Preset.id) :
    (getPreset (createPreset st uid freshId now name patternId settings).2
        uid freshId).status = 200 ∧
    jsGet (getPreset (createPreset st uid freshId now name patternId settings).2
        uid freshId).body "settings" = some (jsonbNorm settings) := by
  have hstate : (createPreset st uid freshId now name patternId settings).2
      = { st with
          presets := st.presets
            ++ [⟨freshId, uid, jsTrim (jsStr name), jsStr patternId,
                 jsonbNorm settings, false, none, now⟩] } := by
    unfold createPreset
    rw [if_neg (by simp [hvalid])]
  have hfind : (st.presets
      ++ [(⟨freshId, uid, jsTrim (jsStr name), jsStr patternId,
           jsonbNorm settings, false, none, now⟩ : Preset)]).find?
        (presetMatch freshId uid)
      = some ⟨freshId, uid, jsTrim (jsStr name), jsStr patternId,
           jsonbNorm settings, false, none, now⟩ := by
    rw [List.find?_append]
    have h1 : st.presets.find? (presetMatch freshId uid) = none := by
      rw [List.find?_eq_none]
      intro p hp hmatch
      apply hfresh
      unfold presetMatch at hmatch
      have hid := (Bool.and_eq_true_iff.mp hmatch).1
      rw [List.mem_map]
      exact ⟨p, hp, by simpa using hid⟩
    rw [h1]
    have h2 : presetMatch freshId uid
        (⟨freshId, uid, jsTrim (jsStr name), jsStr patternId,
          jsonbNorm settings, false, none, now⟩ : Preset) = true := by
      unfold presetMatch
      simp
    simp [List.find?_cons_of_pos _ h2]
  rw [hstate]
  unfold getPreset
  dsimp only
  rw [hfind]
  exact ⟨rfl, rfl⟩

/-- Witness for C9: a concrete valid creation on the concrete store
roundtrips its settings through `getPreset` up to the `jsonb` key
reorder (shortest key first). -/
theorem C9_witness :
    createValid (.str "Cheetah Large") (.str "cheetah") demoSettings = true ∧
    ("p9" ∉ demoStore.presets.map Preset.id) ∧
    (getPreset (createPreset demoStore "u1" "p9" 3 (.str "Cheetah Large")
        (.str "cheetah") demoSettings).2 "u1" "p9").status = 200 ∧
    jsGet (getPreset (createPreset demoStore "u1" "p9" 3 (.str "Cheetah Large")
        (.str "cheetah") demoSettings).2 "u1" "p9").body "settings"
      = some (.obj [("scale", .num 2), ("transparentBg", .bool true),
          ("lightingPreset", .str "dramatic")]) := by
  have h := C9_create_then_get_settings demoStore "u1" "p9" 3
    (.str "Cheetah Large") (.str "cheetah") demoSettings (by decide) (by decide)
  exact ⟨by decide, by decide, h.1, h.2⟩

/-- C2 counterexample: a non-image upload is rejected through the
generic error branch of the translator — the `fileFilter` error is a
plain `Error`, not a `multer.MulterError` — so the response status is
500, not the claimed 400. -/
theorem C2_counterexample :
    (strStartsWith "text/plain" "image/") = false ∧
    (uploadRoute ⟨[], [], []⟩ "u1" 0 1
        (some ⟨"notes.txt", "text/plain"⟩)).1.status = 500 ∧
    ¬ (uploadRoute ⟨[], [], []⟩ "u1" 0 1
        (some ⟨"notes.txt", "text/plain"⟩)).1.status = 400 := by
  exact ⟨by decide, by decide, by decide⟩

/-- C2 (amended): for every authenticated upload request whose file has
a non-image content type, the upload route fails with HTTP 500 (the
plain rejection `Error` falls to the generic branch of the error
translator) and the store is unchanged — in particular no Pattern row is
inserted. -/
theorem C2_upload_nonimage_rejected (st : Store) (uid : String)
    (now freshId : Nat) (file : UploadFile)
    (h : strStartsWith file.mimetype "image/" = false) :
    uploadRoute st uid now freshId (some file)
      = (msgResp 500 "Internal server error.", st) := by
  have hf : fileFilter file = some (.plainErr "Only image uploads are allowed.") := by
    unfold fileFilter
    rw [if_neg (by simp [h])]
  unfold uploadRoute
  dsimp only
  rw [hf]
  rfl

/-- Witness for C2: rejecting a concrete PDF upload leaves the concrete
store untouched and answers 500. -/
theorem C2_witness :
    (strStartsWith "application/pdf" "image/") = false ∧
    uploadRoute demoStore "u1" 7 2 (some ⟨"doc.pdf", "application/pdf"⟩)
      = (msgResp 500 "Internal server error.", demoStore) :=
  ⟨by decide, C2_upload_nonimage_rejected demoStore "u1" 7 2
    ⟨"doc.pdf", "application/pdf"⟩ (by decide)⟩

/-- C6 counterexample: the payload name `" "` is a non-empty string and
the settings value is a plain object, so the claim requires the preset
to be persisted; the handler trims the name before the length check and
answers 400 without inserting a row. -/
theorem C6_counterexample :
    (" " : String) ≠ "" ∧
    (createPreset ⟨[], [], []⟩ "u1" "p9" 0 (.str " ") (.str "cheetah")
        (.obj [])).1.status = 400 ∧
    (createPreset ⟨[], [], []⟩ "u1" "p9" 0 (.str " ") (.str "cheetah")
        (.obj [])).2.presets = [] := by
  refine ⟨by decide, by decide, rfl⟩

/-- The create-validation condition as the amended C6 states it: `name`
and `patternId` are strings that are non-empty after trimming, and
`settings` is a plain object. -/
def specCreateOk (name patternId settings : JSVal) : Prop :=
  (∃ s, name = .str s ∧ jsTrim s ≠ "") ∧
  (∃ t, patternId = .str t ∧ jsTrim t ≠ "") ∧
  (∃ fields, settings = .obj fields)

/-- A string is non-empty iff its length is positive. -/
lemma string_pos_length_iff (s : String) : 0 < s.length ↔ s ≠ "" := by
  rw [String.length, Nat.pos_iff_ne_zero]
  constructor
  · intro h hc
    subst hc
    exact h rfl
  · intro h hc
    apply h
    cases s with
    | mk data =>
      cases data with
      | nil => rfl
      | cons c cs => simp at hc

/-- The code guard `createValid` coincides with the spec-side condition
of the amended C6. -/
lemma createValid_iff_specCreateOk (name patternId settings : JSVal) :
    createValid name patternId settings = true
      ↔ specCreateOk name patternId settings := by
  unfold createValid specCreateOk
  cases name <;> cases patternId <;> cases settings <;>
    simp [isNonEmptyString, jsTruthy, jsTypeofIsObject, jsIsArr,
      decide_eq_true_eq, string_pos_length_iff]

/-- C6 (amended): `POST /api/presets` fails with 400 and an unchanged
store when `name` or `patternId` is not a string or trims to the empty
string (so empty or whitespace-only), or `settings` is not a plain
object; otherwise it persists exactly one new preset — name trimmed,
settings as the `jsonb` column stores them, `is_public = false`, no
share slug — and returns its full record with status 201. -/
theorem C6_create_validation (st : Store) (uid freshId : String) (now : Nat)
    (name patternId settings : JSVal) :
    (¬ specCreateOk name patternId settings →
      createPreset st uid freshId now name patternId settings
        = (msgResp 400 "Preset name, patternId, and settings are required.", st)) ∧
    (∀ s t fields, name = .str s → patternId = .str t → settings = .obj fields →
      jsTrim s ≠ "" → jsTrim t ≠ "" →
      createPreset st uid freshId now name patternId settings
        = (⟨201, mapPresetRow
              ⟨freshId, uid, jsTrim s, t, jsonbNorm settings, false, none, now⟩⟩,
           { st with
             presets := st.presets
               ++ [⟨freshId, uid, jsTrim s, t, jsonbNorm settings,
                    false, none, now⟩] })) := by
  constructor
  · intro hbad
    have hv : createValid name patternId settings = false := by
      cases hc : createValid name patternId settings
      · rfl
      · exact absurd ((createValid_iff_specCreateOk name patternId settings).mp hc)
          hbad
    unfold createPreset
    rw [if_pos (by simp [hv])]
  · intro s t fields hn hp hs hsne htne
    subst hn hp hs
    have hv : createValid (.str s) (.str t) (.obj fields) = true := by
      rw [createValid_iff_specCreateOk]
      exact ⟨⟨s, rfl, hsne⟩, ⟨t, rfl, htne⟩, ⟨fields, rfl⟩⟩
    unfold createPreset
    rw [if_neg (by simp [hv])]
    rfl

/-- Witness for C6: a concrete valid payload persists on the concrete
store with status 201, trimmed name, private, slugless. -/
theorem C6_witness :
    jsTrim " Cheetah " ≠ "" ∧ jsTrim "cheetah" ≠ "" ∧
    createPreset demoStore "u1" "p9" 3 (.str " Cheetah ") (.str "cheetah")
        (.obj [])
      = (⟨201, mapPresetRow ⟨"p9", "u1", jsTrim " Cheetah ", "cheetah",
            .obj [], false, none, 3⟩⟩,
         { demoStore with
           presets := demoStore.presets
             ++ [⟨"p9", "u1", jsTrim " Cheetah ", "cheetah", .obj [],
                  false, none, 3⟩] }) := by
  refine ⟨by decide, by decide, ?_⟩
  exact (C6_create_validation demoStore "u1" "p9" 3 (.str " Cheetah ")
      (.str "cheetah") (.obj [])).2 " Cheetah " "cheetah" [] rfl rfl rfl
    (by decide) (by decide)

/-- C10 counterexample: the public preset referencing `remote-4.5` has
a suffix that IS a number (4.5, not NaN) matching no pattern row, so
the claim requires resolve to answer 200 with a null patternUrl; but
4.5 cannot bind to the integral id key, the query throws, and resolve
answers 500. -/
theorem C10_counterexample :
    demoStoreFrac.presets.find? (fun q => q.share_slug == some "fracslug00")
      = some demoFractional ∧
    demoFractional.is_public = true ∧
    jsNumber "4.5" ≠ .nan ∧
    (resolveShare demoStoreFrac "http://h" "fracslug00").status = 500 ∧
    ¬ (resolveShare demoStoreFrac "http://h" "fracslug00").status = 200 := by
  exact ⟨rfl, rfl, by decide, by decide, by decide⟩

/-- C10 (amended): for a public preset found by slug: when the pattern
reference lacks the `remote-` prefix, or its suffix is NaN under JS
Number conversion, or it converts to an in-range integer matching no
patterns row, resolve answers 200 with patternUrl null; an absolute URL
is returned only when a `remote-`-prefixed reference converts to an
in-range integer id of an existing row, and then it is that row's
upload URL; but when the suffix converts to a number that is
non-integral or infinite, or to an integer outside the id column's
range, the pattern query throws and resolve answers 500. -/
theorem C10_resolve_patternUrl (st : Store) (base slug : String) (p : Preset)
    (hfind : st.presets.find? (fun q => q.share_slug == some slug) = some p)
    (hpub : p.is_public = true) :
    (strStartsWith p.pattern_id "remote-" = false →
      (resolveShare st base slug).status = 200 ∧
      jsGet (resolveShare st base slug).body "patternUrl" = some .null) ∧
    (strStartsWith p.pattern_id "remote-" = true →
      jsNumber (strDrop p.pattern_id 7) = .nan →
      (resolveShare st base slug).status = 200 ∧
      jsGet (resolveShare st base slug).body "patternUrl" = some .null) ∧
    (∀ n, strStartsWith p.pattern_id "remote-" = true →
      jsNumber (strDrop p.pattern_id 7) = .intVal n →
      int4InRange n = true →
      st.patterns.find? (fun q => (q.id : Int) == n) = none →
      (resolveShare st base slug).status = 200 ∧
      jsGet (resolveShare st base slug).body "patternUrl" = some .null) ∧
    (∀ url, jsGet (resolveShare st base slug).body "patternUrl"
        = some (.str url) →
      strStartsWith p.pattern_id "remote-" = true ∧
      ∃ n pt, jsNumber (strDrop p.pattern_id 7) = .intVal n ∧
        int4InRange n = true ∧
        st.patterns.find? (fun q => (q.id : Int) == n) = some pt ∧
        url = base ++ "/uploads/" ++ pt.filename) ∧
    (strStartsWith p.pattern_id "remote-" = true →
      (jsNumber (strDrop p.pattern_id 7) = .nonIntegral ∨
        (∃ n, jsNumber (strDrop p.pattern_id 7) = .intVal n ∧
          int4InRange n = false)) →
      resolveShare st base slug
        = msgResp 500 "Failed to fetch shared preset.") := by
  have hok : ∀ u?, resolvePatternUrl st base p.pattern_id = .ok u? →
      resolveShare st base slug
        = ⟨200, .obj [("name", .str p.name), ("patternId", .str p.pattern_id),
            ("settings", p.settings),
            ("patternUrl",
             match u? with
             | some url => .str url
             | none => .null)]⟩ := by
    intro u? hu
    unfold resolveShare
    rw [hfind]
    dsimp only
    rw [if_neg (by rw [hpub]; simp), hu]
  have herr : resolvePatternUrl st base p.pattern_id = .error () →
      resolveShare st base slug
        = msgResp 500 "Failed to fetch shared preset." := by
    intro hu
    unfold resolveShare
    rw [hfind]
    dsimp only
    rw [if_neg (by rw [hpub]; simp), hu]
  refine ⟨?_, ?_, ?_, ?_, ?_⟩
  · intro h
    have hres := hok none (by
      unfold resolvePatternUrl
      rw [if_neg (by simp [h])])
    exact ⟨by rw [hres], by rw [hres]; simp [jsGet]⟩
  · intro h hn
    have hres := hok none (by
      unfold resolvePatternUrl
      rw [if_pos h, hn])
    exact ⟨by rw [hres], by rw [hres]; simp [jsGet]⟩
  · intro n h hn hr4 hfd
    have hres := hok none (by
      unfold resolvePatternUrl
      rw [if_pos h, hn]
      dsimp only
      rw [if_pos hr4, hfd])
    exact ⟨by rw [hres], by rw [hres]; simp [jsGet]⟩
  · intro url hurl
    cases hr : resolvePatternUrl st base p.pattern_id with
    | error e =>
      cases e
      rw [herr hr] at hurl
      simp [jsGet, msgResp] at hurl
    | ok u? =>
      rw [hok u? hr] at hurl
      simp only [jsGet, List.find?] at hurl
      cases u? with
      | none => simp at hurl
      | some u =>
        have huu : u = url := by simpa using hurl
        unfold resolvePatternUrl at hr
        by_cases hsw : strStartsWith p.pattern_id "remote-" = true
        · rw [if_pos hsw] at hr
          refine ⟨hsw, ?_⟩
          cases hn : jsNumber (strDrop p.pattern_id 7) with
          | nan =>
            rw [hn] at hr
            simp at hr
          | nonIntegral =>
            rw [hn] at hr
            simp at hr
          | intVal n =>
            rw [hn] at hr
            dsimp only at hr
            by_cases hr4 : int4InRange n = true
            · rw [if_pos hr4] at hr
              cases hfd : st.patterns.find? (fun q => (q.id : Int) == n) with
              | none =>
                rw [hfd] at hr
                simp at hr
              | some pt =>
                rw [hfd] at hr
                have hu : base ++ "/uploads/" ++ pt.filename = u := by
                  simpa using hr
                exact ⟨n, pt, rfl, hr4, hfd, by rw [← huu, hu]⟩
            · rw [if_neg hr4] at hr
              simp at hr
        · rw [if_neg hsw] at hr
          simp at hr
  · intro h hcase
    apply herr
    unfold resolvePatternUrl
    rw [if_pos h]
    rcases hcase with hni | ⟨n, hn, hrange⟩
    · rw [hni]
    · rw [hn]
      dsimp only
      rw [if_neg (by simp [hrange])]

/-- Witness for C10: the concrete public preset references `remote-1`,
which converts to the in-range integer 1 and resolves to the stored
pattern row, so resolve answers 200 with the absolute upload URL. -/
theorem C10_witness :
    demoStore.presets.find? (fun q => q.share_slug == some "pubslug000")
      = some demoPublic ∧
    demoPublic.is_public = true ∧
    (resolveShare demoStore "http://h" "pubslug000").status = 200 ∧
    jsGet (resolveShare demoStore "http://h" "pubslug000").body "patternUrl"
      = some (.str "http://h/uploads/170-cat.png") ∧
    (strStartsWith demoPublic.pattern_id "remote-" = true ∧
      ∃ n pt, jsNumber (strDrop demoPublic.pattern_id 7) = .intVal n ∧
        int4InRange n = true ∧
        demoStore.patterns.find? (fun q => (q.id : Int) == n) = some pt ∧
        "http://h/uploads/170-cat.png" = "http://h" ++ "/uploads/" ++ pt.filename) := by
  have h := C10_resolve_patternUrl demoStore "http://h" "pubslug000"
    demoPublic rfl rfl
  exact ⟨rfl, rfl, rfl, rfl, h.2.2.2.1 "http://h/uploads/170-cat.png" rfl⟩
end PatternViz
